import Mathlib

/-!
Verification development for the TT project-tracker dashboard.

The dashboard keeps an in-memory list of `Project` records and derives
per-team statistics (`calculateTeamStats`), a filtered view
(`applyFilters`), a CSV export (`handleExport`) and an import preview
(`handleFileUpload`).  JavaScript numbers are embedded as rationals (`ℚ`),
JavaScript strings as `String`, optional numeric fields as `Option ℚ`,
and the `Record<string, TeamStats>` object as an association list in
insertion order (a JavaScript object holds at most one entry per key;
assignment to an existing key updates it in place, a new key is appended).
-/

namespace TT

/-- Shape of a project record as declared by the `Project` interface in the
dashboard component. -/
structure Project where
  id : String
  name : String
  description : String
  team : String
  status : String
  priority : String
  ahtImpact : Option ℚ
  costSaving : Option ℚ
  qualityImpact : Option ℚ
deriving DecidableEq

/-- Shape of the per-team statistics bucket (`TeamStats` interface). -/
structure TeamStats where
  totalProjects : ℕ
  notStarted : ℕ
  inProgress : ℕ
  completed : ℕ
  ahtImpact : ℚ
  costSaving : ℚ
  qualityImpact : ℚ
deriving DecidableEq

/-- The zero-initialised bucket created on first occurrence of a team. -/
def emptyStats : TeamStats :=
  { totalProjects := 0, notStarted := 0, inProgress := 0, completed := 0
    ahtImpact := 0, costSaving := 0, qualityImpact := 0 }

/-- Association-list model of the `Record<string, TeamStats>` object. -/
abbrev StatsMap : Type := List (String × TeamStats)

/-- Reading `stats[team]`: the value of the (unique) entry with the given
key, or `none` when absent. -/
def getStat (m : StatsMap) (team : String) : Option TeamStats :=
  match m with
  | [] => none
  | kv :: rest => if kv.1 = team then some kv.2 else getStat rest team

/-- Writing `stats[team] = st`: update the existing entry in place, or
append a new entry at the end (JavaScript object assignment). -/
def setStat (m : StatsMap) (team : String) (st : TeamStats) : StatsMap :=
  match m with
  | [] => [(team, st)]
  | kv :: rest => if kv.1 = team then (team, st) :: rest else kv :: setStat rest team st

/-- Body of the `forEach` in `calculateTeamStats` applied to one bucket:
increment `totalProjects`, increment the counter matching `status`, and,
for `"Completed"`, add the three numeric metrics (`x || 0` on an optional
numeric field is `Option.getD x 0`). -/
def updateStat (project : Project) (st : TeamStats) : TeamStats :=
  let st1 := { st with totalProjects := st.totalProjects + 1 }
  let st2 := if project.status = "Not Started" then { st1 with notStarted := st1.notStarted + 1 } else st1
  let st3 := if project.status = "In Progress" then { st2 with inProgress := st2.inProgress + 1 } else st2
  if project.status = "Completed" then
    { st3 with
        completed := st3.completed + 1,
        ahtImpact := st3.ahtImpact + project.ahtImpact.getD 0,
        costSaving := st3.costSaving + project.costSaving.getD 0,
        qualityImpact := st3.qualityImpact + project.qualityImpact.getD 0 }
  else st3

/-- One iteration of the `forEach` in `calculateTeamStats`: create the
zero bucket when the team is absent, then mutate it via `updateStat`. -/
def statsStep (m : StatsMap) (project : Project) : StatsMap :=
  setStat m project.team (updateStat project ((getStat m project.team).getD emptyStats))

/-- The Aggregation Engine: fold the project list into per-team buckets. -/
def calculateTeamStats (projectList : List Project) : StatsMap :=
  projectList.foldl statsStep []

/-- Sum of the `totalProjects` field over all team buckets of a stats map. -/
def sumTotal (m : StatsMap) : ℕ :=
  (m.map (fun kv => kv.2.totalProjects)).sum

theorem updateStat_totalProjects (p : Project) (st : TeamStats) :
    (updateStat p st).totalProjects = st.totalProjects + 1 := by
  simp only [updateStat]
  split_ifs <;> rfl

theorem getStat_setStat_self (m : StatsMap) (t : String) (st : TeamStats) :
    getStat (setStat m t st) t = some st := by
  induction m with
  | nil => simp [setStat, getStat]
  | cons kv rest ih =>
      by_cases h : kv.1 = t
      · simp [setStat, getStat, h]
      · simp [setStat, getStat, h, ih]

theorem getStat_setStat_ne (m : StatsMap) (t t' : String) (st : TeamStats)
    (h : t' ≠ t) :
    getStat (setStat m t st) t' = getStat m t' := by
  induction m with
  | nil => simp [setStat, getStat, Ne.symm h]
  | cons kv rest ih =>
      by_cases hk : kv.1 = t
      · simp [setStat, getStat, hk, Ne.symm h]
      · by_cases hk2 : kv.1 = t'
        · simp [setStat, getStat, hk, hk2, h]
        · simp [setStat, getStat, hk, hk2, ih]

theorem sumTotal_setStat (m : StatsMap) (t : String) (st : TeamStats) :
    sumTotal (setStat m t st) + ((getStat m t).getD emptyStats).totalProjects
      = sumTotal m + st.totalProjects := by
  induction m with
  | nil => simp [setStat, getStat, sumTotal, emptyStats]
  | cons kv rest ih =>
      by_cases h : kv.1 = t
      · simp only [setStat, getStat, h, if_pos]
        simp [sumTotal]
        omega
      · simp only [setStat, getStat, h, if_neg, not_false_iff]
        simp only [sumTotal, List.map_cons, List.sum_cons] at ih ⊢
        omega

theorem sumTotal_statsStep (m : StatsMap) (p : Project) :
    sumTotal (statsStep m p) = sumTotal m + 1 := by
  have h := sumTotal_setStat m p.team
    (updateStat p ((getStat m p.team).getD emptyStats))
  rw [updateStat_totalProjects] at h
  unfold statsStep
  omega

theorem sumTotal_foldl (ps : List Project) :
    ∀ m : StatsMap, sumTotal (ps.foldl statsStep m) = sumTotal m + ps.length := by
  induction ps with
  | nil => intro m; simp
  | cons p rest ih =>
      intro m
      simp only [List.foldl_cons, List.length_cons]
      rw [ih (statsStep m p), sumTotal_statsStep]
      omega

/-- Claim C1: for every input project list, the sum over all teams of the
`totalProjects` field in the mapping returned by `calculateTeamStats`
equals the length of the input list. -/
theorem c1_total_projects_sum (ps : List Project) :
    sumTotal (calculateTeamStats ps) = ps.length := by
  unfold calculateTeamStats
  rw [sumTotal_foldl]
  simp [sumTotal]

theorem updateStat_ahtImpact (p : Project) (st : TeamStats) :
    (updateStat p st).ahtImpact =
      if p.status = "Completed" then st.ahtImpact + p.ahtImpact.getD 0 else st.ahtImpact := by
  simp only [updateStat]
  split_ifs <;> rfl

theorem updateStat_costSaving (p : Project) (st : TeamStats) :
    (updateStat p st).costSaving =
      if p.status = "Completed" then st.costSaving + p.costSaving.getD 0 else st.costSaving := by
  simp only [updateStat]
  split_ifs <;> rfl

theorem updateStat_qualityImpact (p : Project) (st : TeamStats) :
    (updateStat p st).qualityImpact =
      if p.status = "Completed" then st.qualityImpact + p.qualityImpact.getD 0 else st.qualityImpact := by
  simp only [updateStat]
  split_ifs <;> rfl

/-- Net effect of the `forEach` on a single team's bucket: the bucket of
team `t` is updated exactly by the records whose `team` equals `t`. -/
def applyTeam (l : List Project) (st : TeamStats) : TeamStats :=
  l.foldl (fun s p => updateStat p s) st

theorem getStat_statsStep (m : StatsMap) (p : Project) (t : String) :
    (getStat (statsStep m p) t).getD emptyStats =
      if p.team = t then updateStat p ((getStat m t).getD emptyStats)
      else (getStat m t).getD emptyStats := by
  by_cases h : p.team = t
  · rw [if_pos h, statsStep, ← h, getStat_setStat_self]
    rfl
  · rw [if_neg h, statsStep, getStat_setStat_ne _ _ _ _ (Ne.symm h)]

theorem getStat_foldl (ps : List Project) :
    ∀ (m : StatsMap) (t : String),
      (getStat (ps.foldl statsStep m) t).getD emptyStats
        = applyTeam (ps.filter (fun p => p.team == t)) ((getStat m t).getD emptyStats) := by
  induction ps with
  | nil => intro m t; simp [applyTeam]
  | cons p rest ih =>
      intro m t
      simp only [List.foldl_cons, List.filter_cons]
      by_cases h : p.team = t
      · rw [ih, getStat_statsStep, if_pos h]
        simp [applyTeam, h]
      · rw [ih, getStat_statsStep, if_neg h]
        simp [applyTeam, h]

theorem applyTeam_ahtImpact (l : List Project) :
    ∀ st : TeamStats,
      (applyTeam l st).ahtImpact =
        st.ahtImpact
          + ((l.filter (fun p => p.status == "Completed")).map (fun p => p.ahtImpact.getD 0)).sum := by
  induction l with
  | nil => intro st; simp [applyTeam]
  | cons p rest ih =>
      intro st
      simp only [applyTeam, List.foldl_cons, List.filter_cons] at ih ⊢
      rw [ih (updateStat p st), updateStat_ahtImpact]
      by_cases h : p.status = "Completed" <;> simp [h, add_assoc]

theorem applyTeam_costSaving (l : List Project) :
    ∀ st : TeamStats,
      (applyTeam l st).costSaving =
        st.costSaving
          + ((l.filter (fun p => p.status == "Completed")).map (fun p => p.costSaving.getD 0)).sum := by
  induction l with
  | nil => intro st; simp [applyTeam]
  | cons p rest ih =>
      intro st
      simp only [applyTeam, List.foldl_cons, List.filter_cons] at ih ⊢
      rw [ih (updateStat p st), updateStat_costSaving]
      by_cases h : p.status = "Completed" <;> simp [h, add_assoc]

theorem applyTeam_qualityImpact (l : List Project) :
    ∀ st : TeamStats,
      (applyTeam l st).qualityImpact =
        st.qualityImpact
          + ((l.filter (fun p => p.status == "Completed")).map (fun p => p.qualityImpact.getD 0)).sum := by
  induction l with
  | nil => intro st; simp [applyTeam]
  | cons p rest ih =>
      intro st
      simp only [applyTeam, List.foldl_cons, List.filter_cons] at ih ⊢
      rw [ih (updateStat p st), updateStat_qualityImpact]
      by_cases h : p.status = "Completed" <;> simp [h, add_assoc]

/-- Input list of the §8 scenario: one record per status value for team
`"X"`, the completed one carrying the metrics 10, 100 and 5. -/
def scenarioProjects : List Project :=
  [ { id := "1", name := "p1", description := "", team := "X", status := "Not Started",
      priority := "Medium", ahtImpact := none, costSaving := none, qualityImpact := none },
    { id := "2", name := "p2", description := "", team := "X", status := "In Progress",
      priority := "Medium", ahtImpact := none, costSaving := none, qualityImpact := none },
    { id := "3", name := "p3", description := "", team := "X", status := "Completed",
      priority := "Medium", ahtImpact := some 10, costSaving := some 100, qualityImpact := some 5 },
    { id := "4", name := "p4", description := "", team := "X", status := "On Hold",
      priority := "Medium", ahtImpact := none, costSaving := none, qualityImpact := none } ]

theorem getStat_calculateTeamStats (ps : List Project) (t : String) :
    (getStat (calculateTeamStats ps) t).getD emptyStats
      = applyTeam (ps.filter (fun p => p.team == t)) emptyStats := by
  unfold calculateTeamStats
  rw [getStat_foldl]
  rfl

/-- Claim C2: in the bucket `calculateTeamStats` builds for a team, the summed
`ahtImpact`, `costSaving` and `qualityImpact` fields equal the sums of
those metrics (absent treated as 0) over only the records of that team
whose status is exactly `"Completed"`; and on the concrete scenario input
(one record per status for team `"X"`, the completed one carrying
10/100/5) the bucket for `"X"` is
`totalProjects=4, notStarted=1, inProgress=1, completed=1, ahtImpact=10,
costSaving=100, qualityImpact=5`. -/
theorem c2_completed_metric_sums :
    (∀ (ps : List Project) (t : String),
      ((getStat (calculateTeamStats ps) t).getD emptyStats).ahtImpact
          = ((ps.filter (fun p => p.team == t && p.status == "Completed")).map
              (fun p => p.ahtImpact.getD 0)).sum
        ∧ ((getStat (calculateTeamStats ps) t).getD emptyStats).costSaving
          = ((ps.filter (fun p => p.team == t && p.status == "Completed")).map
              (fun p => p.costSaving.getD 0)).sum
        ∧ ((getStat (calculateTeamStats ps) t).getD emptyStats).qualityImpact
          = ((ps.filter (fun p => p.team == t && p.status == "Completed")).map
              (fun p => p.qualityImpact.getD 0)).sum)
    ∧ getStat (calculateTeamStats scenarioProjects) "X"
        = some { totalProjects := 4, notStarted := 1, inProgress := 1, completed := 1,
                 ahtImpact := 10, costSaving := 100, qualityImpact := 5 } := by
  constructor
  · intro ps t
    have hfilter :
        (ps.filter (fun p => p.team == t)).filter (fun p => p.status == "Completed")
          = ps.filter (fun p => p.team == t && p.status == "Completed") := by
      rw [List.filter_filter]
      exact List.filter_congr (fun p _ => Bool.and_comm _ _)
    refine ⟨?_, ?_, ?_⟩
    · rw [getStat_calculateTeamStats, applyTeam_ahtImpact, ← hfilter]
      simp [emptyStats]
    · rw [getStat_calculateTeamStats, applyTeam_costSaving, ← hfilter]
      simp [emptyStats]
    · rw [getStat_calculateTeamStats, applyTeam_qualityImpact, ← hfilter]
      simp [emptyStats]
  · simp [scenarioProjects, calculateTeamStats, statsStep, updateStat, getStat, setStat, emptyStats]

/-- Displayed progress percentage of a team row in the Team Progress
Overview table: `totalProjects > 0 ? ((completed / totalProjects) * 100).toFixed(0) : '0'`.
On a nonnegative value, `toFixed(0)` rounds to the nearest integer with
ties going up, which is `round` on `ℚ`. -/
def progress (stats : TeamStats) : ℤ :=
  if stats.totalProjects > 0 then
    round (((stats.completed : ℚ) / (stats.totalProjects : ℚ)) * 100)
  else 0

/-- Claim C6: the displayed progress equals completed divided by totalProjects
times 100 rounded to the nearest integer when totalProjects is positive
(no integer is strictly closer to the exact ratio), and equals 0 when
totalProjects is 0; the division is guarded so the zero case never
divides. -/
theorem c6_progress_rounding (st : TeamStats) :
    (st.totalProjects = 0 → progress st = 0)
    ∧ (0 < st.totalProjects → ∀ m : ℤ,
        |((st.completed : ℚ) / (st.totalProjects : ℚ)) * 100 - (progress st : ℚ)|
          ≤ |((st.completed : ℚ) / (st.totalProjects : ℚ)) * 100 - (m : ℚ)|) := by
  constructor
  · intro h
    simp [progress, h]
  · intro h m
    have hp : progress st = round (((st.completed : ℚ) / (st.totalProjects : ℚ)) * 100) := by
      simp [progress, h]
    rw [hp]
    exact round_le _ m

/-- Witness for C6 at concrete buckets: the zero-total bucket renders 0,
and for a bucket with 1 of 4 completed the rendered value 25 is at least
as close to the exact ratio as the integer 24. -/
theorem c6_progress_rounding_witness :
    progress emptyStats = 0
    ∧ |((TeamStats.mk 4 1 1 1 10 100 5).completed : ℚ)
          / ((TeamStats.mk 4 1 1 1 10 100 5).totalProjects : ℚ) * 100
          - (progress (TeamStats.mk 4 1 1 1 10 100 5) : ℚ)|
        ≤ |((TeamStats.mk 4 1 1 1 10 100 5).completed : ℚ)
          / ((TeamStats.mk 4 1 1 1 10 100 5).totalProjects : ℚ) * 100
          - ((24 : ℤ) : ℚ)| :=
  ⟨(c6_progress_rounding emptyStats).1 rfl,
   (c6_progress_rounding (TeamStats.mk 4 1 1 1 10 100 5)).2 (by decide) 24⟩

/-- Filter selection state (`filters` in the component): each field is a
concrete value or the empty string meaning "no filter". -/
structure Filters where
  team : String
  status : String
  priority : String
deriving DecidableEq

/-- The Filter Engine (the `useEffect` applying filters): starting from
the full list, each non-empty filter field narrows by exact equality. -/
def applyFilters (filters : Filters) (projects : List Project) : List Project :=
  let filtered := projects
  let filtered := if filters.team ≠ "" then filtered.filter (fun p => p.team == filters.team) else filtered
  let filtered := if filters.status ≠ "" then filtered.filter (fun p => p.status == filters.status) else filtered
  if filters.priority ≠ "" then filtered.filter (fun p => p.priority == filters.priority) else filtered

/-- Modelled from the spec's Filter Engine contract: a project matches a
selection when every set field agrees by exact string equality, an
empty/unset field imposing no constraint. -/
def matchesSelection (filters : Filters) (p : Project) : Bool :=
  (filters.team == "" || p.team == filters.team)
    && (filters.status == "" || p.status == filters.status)
    && (filters.priority == "" || p.priority == filters.priority)

theorem applyFilters_eq_filter (f : Filters) (ps : List Project) :
    applyFilters f ps = ps.filter (matchesSelection f) := by
  have stage : ∀ (l : List Project) (g : Project → String) (v : String),
      (if v ≠ "" then l.filter (fun p => g p == v) else l)
        = l.filter (fun p => v == "" || g p == v) := by
    intro l g v
    by_cases h : v = ""
    · simp [h]
    · have hb : (v == "") = false := beq_eq_false_iff_ne.mpr h
      simp [h, hb]
  simp only [applyFilters]
  rw [stage ps (fun p => p.team) f.team, stage _ (fun p => p.status) f.status,
    stage _ (fun p => p.priority) f.priority, List.filter_filter, List.filter_filter]
  exact List.filter_congr fun p _ => by
    simp [matchesSelection, Bool.and_comm, Bool.and_left_comm, Bool.and_assoc]

/-- Claim C7: the Filter Engine returns exactly the subsequence of input
projects whose fields are string-equal to every set filter value, in
input order (formally: it equals `List.filter` of the spec predicate
`matchesSelection`, and is a sublist of the input). -/
theorem c7_filter_exact (f : Filters) (ps : List Project) :
    applyFilters f ps = ps.filter (matchesSelection f)
    ∧ List.Sublist (applyFilters f ps) ps := by
  refine ⟨applyFilters_eq_filter f ps, ?_⟩
  rw [applyFilters_eq_filter]
  exact List.filter_sublist ps

/-- Claim C8: the Filter Engine is idempotent — applying the same selection to
its own output returns the same list. -/
theorem c8_filter_idempotent (f : Filters) (ps : List Project) :
    applyFilters f (applyFilters f ps) = applyFilters f ps := by
  rw [applyFilters_eq_filter f ps, applyFilters_eq_filter, List.filter_filter]
  exact List.filter_congr fun p _ => Bool.and_self _

/-! Import pipeline.  A parsed row is an association list from column
header to cell value in column order (PapaParse with `header: true`,
`dynamicTyping: false` yields one string-valued object per data row).
String methods of JavaScript are modelled at the character-list level so
that they compute: `trim`, `toLowerCase`, `includes`, `join`. -/

/-- ASCII whitespace test used by the `trim` model. -/
def isWS (c : Char) : Bool :=
  c == ' ' || c == '\t' || c == '\n' || c == '\r'

/-- Model of JavaScript `s.trim()`: strip leading and trailing whitespace. -/
def jsTrim (s : String) : String :=
  String.mk (((s.data.dropWhile isWS).reverse.dropWhile isWS).reverse)

/-- Model of JavaScript `s.toLowerCase()` (the headers involved are ASCII). -/
def jsToLower (s : String) : String :=
  String.mk (s.data.map Char.toLower)

/-- Does the character list start with the pattern. -/
def charsStart : List Char → List Char → Bool
  | [], _ => true
  | _ :: _, [] => false
  | p :: ps, c :: cs => p == c && charsStart ps cs

/-- Does the character list contain the pattern as a contiguous run. -/
def charsIncl : List Char → List Char → Bool
  | p, [] => p.isEmpty
  | p, c :: cs => charsStart p (c :: cs) || charsIncl p cs

/-- Model of JavaScript `k.includes(p)`: substring containment. -/
def jsIncludes (k p : String) : Bool :=
  charsIncl p.data k.data

/-- A parsed import row: column header to raw cell value, in column order. -/
abbrev Row : Type := List (String × String)

/-- JavaScript object assignment `out[k] = v` on a row object: update the
existing entry in place, or append a new one. -/
def setCell (m : Row) (k v : String) : Row :=
  match m with
  | [] => [(k, v)]
  | kv :: rest => if kv.1 = k then (k, v) :: rest else kv :: setCell rest k v

/-- The `normalizeKeys` helper: rebuild the row object keyed by the
trimmed, lowercased headers, in object order. -/
def normalizeKeys (row : Row) : Row :=
  row.foldl (fun out kv => setCell out (jsToLower (jsTrim kv.1)) kv.2) []

/-- The `pick` helper: for each synonym pattern in order, scan the row's
keys in object order and return the value of the first key containing the
pattern as a substring; `none` models `undefined`. -/
def pick (row : Row) (patterns : List String) : Option String :=
  match patterns with
  | [] => none
  | p :: ps =>
      match row.find? (fun kv => jsIncludes kv.1 p) with
      | some kv => some kv.2
      | none => pick row ps

/-- JavaScript truthiness of a picked cell: `undefined` and the empty
string are falsy, everything else (including whitespace) is truthy. -/
def truthy : Option String → Bool
  | none => false
  | some s => !(s == "")

/-- Numeric value of a digit run (most significant first). -/
def natOfDigits (l : List Char) : ℕ :=
  l.foldl (fun n c => n * 10 + (c.toNat - 48)) 0

/-- Model of JavaScript `parseFloat` on the decimal literals this
pipeline feeds it: skip leading whitespace, optional sign, then
`digits[.digits]`; `none` models `NaN` (no digits at all).  Exponent
suffixes are not modelled. -/
def jsParseFloat (s : String) : Option ℚ :=
  let cs := s.data.dropWhile isWS
  let signAndRest : Bool × List Char :=
    match cs with
    | '-' :: rest => (true, rest)
    | '+' :: rest => (false, rest)
    | _ => (false, cs)
  let intPart := signAndRest.2.takeWhile Char.isDigit
  let rest := signAndRest.2.dropWhile Char.isDigit
  let fracPart :=
    match rest with
    | '.' :: r => r.takeWhile Char.isDigit
    | _ => []
  if intPart.isEmpty && fracPart.isEmpty then none
  else
    let v : ℚ :=
      if fracPart.isEmpty then (natOfDigits intPart : ℚ)
      else (natOfDigits intPart : ℚ) + (natOfDigits fracPart : ℚ) / ((10 : ℚ) ^ fracPart.length)
    some (if signAndRest.1 then -v else v)

/-- Numeric coercion of a metric column:
`parseFloat(String(pick(...) || '')) || 0` (`NaN` and a missing column
both coerce to 0). -/
def coerceNum (x : Option String) : ℚ :=
  (jsParseFloat (x.getD "")).getD 0

/-- Shape of a staged import record (`ImportedProjectData`) as built in
the upload handler; missing string columns are staged as `""`, missing
numeric columns as 0. -/
structure ImportedProjectData where
  name : String
  description : String
  team : String
  status : String
  priority : String
  ahtImpact : ℚ
  costSaving : ℚ
  qualityImpact : ℚ
deriving DecidableEq

/-- Body of the `rows.forEach` in the CSV branch of `handleFileUpload`:
normalize the keys, pick name and team, drop the row unless both are
truthy, otherwise build the staged record with trimming and numeric
coercion. -/
def importRow (rawRow : Row) : Option ImportedProjectData :=
  let row := normalizeKeys rawRow
  let name := pick row ["name", "project"]
  let team := pick row ["team", "owner"]
  if truthy name && truthy team then
    some { name := jsTrim (name.getD ""),
           description := jsTrim ((pick row ["description", "desc"]).getD ""),
           team := jsTrim (team.getD ""),
           status := jsTrim ((pick row ["status"]).getD ""),
           priority := jsTrim ((pick row ["priority"]).getD ""),
           ahtImpact := coerceNum (pick row ["aht", "aht impact"]),
           costSaving := coerceNum (pick row ["cost", "cost saving"]),
           qualityImpact := coerceNum (pick row ["quality", "quality impact"]) }
  else none

/-- The CSV branch of `handleFileUpload`: stage every accepted row, in
order, as the import preview. -/
def handleFileUpload (rows : List Row) : List ImportedProjectData :=
  rows.filterMap importRow

/-- Payload of one `create` call issued by `handleConfirmImport`. -/
structure CreateInput where
  name : String
  description : String
  team : String
  status : String
  priority : String
  ahtImpact : ℚ
  costSaving : ℚ
  qualityImpact : ℚ
deriving DecidableEq

/-- Defaulting applied per record in `handleConfirmImport`: on a string
field `x || d` substitutes `d` exactly when `x` is empty; on the total
numeric fields `x || 0` is the identity (0 stays 0). -/
def toCreateInput (p : ImportedProjectData) : CreateInput :=
  { name := p.name,
    description := p.description,
    team := p.team,
    status := if p.status = "" then "Not Started" else p.status,
    priority := if p.priority = "" then "Medium" else p.priority,
    ahtImpact := p.ahtImpact,
    costSaving := p.costSaving,
    qualityImpact := p.qualityImpact }

/-- The sequence of `create` payloads `handleConfirmImport` submits, one
per preview record, in order. -/
def handleConfirmImport (importPreview : List ImportedProjectData) : List CreateInput :=
  importPreview.map toCreateInput

/-! Export pipeline. -/

/-- Model of JavaScript `array.join(sep)`. -/
def joinSep (sep : String) : List String → String
  | [] => ""
  | [x] => x
  | x :: rest => x ++ sep ++ joinSep sep rest

/-- Quote doubling: models `s.replace(/"/g, '""')` — every quote
character is replaced by two. -/
def doubleQuotes (l : List Char) : List Char :=
  l.flatMap (fun c => if c = '"' then ['"', '"'] else [c])

/-- Quoting condition of `escapeCsv`:
`s.includes('"') || s.includes(',') || s.includes('\n')`. -/
def needsQuote (s : String) : Bool :=
  s.data.contains '"' || s.data.contains ',' || s.data.contains '\n'

/-- The export's field escaper: wrap in quotes with internal quotes
doubled when the value contains a quote, comma or newline; otherwise
return the value verbatim. -/
def escapeCsv (s : String) : String :=
  if needsQuote s then "\"" ++ String.mk (doubleQuotes s.data) ++ "\"" else s

/-- Inverse of `doubleQuotes`: collapse each doubled quote back to one. -/
def undoubleQuotes : List Char → List Char
  | [] => []
  | [c] => [c]
  | c :: c2 :: rest =>
      if c = '"' ∧ c2 = '"' then '"' :: undoubleQuotes rest
      else c :: undoubleQuotes (c2 :: rest)

/-- Fixed header cells of the export. -/
def csvHeader : List String :=
  ["Project Name", "Description", "Team", "Status", "Priority", "AHT Impact", "Cost Saving", "Quality Impact"]

/-- Rendering of a numeric cell: `String(x || 0)`; the rational `toString`
stands in for JavaScript number formatting (identical on the integral
values involved). -/
def numCell (x : Option ℚ) : String :=
  toString (x.getD 0)

/-- One data row of the export (body of `projects.map` in `handleExport`,
including the `join(',')`); `p.description || ''` is the identity on a
plain string field. -/
def exportRow (p : Project) : String :=
  joinSep ","
    [escapeCsv p.name, escapeCsv p.description, escapeCsv p.team, escapeCsv p.status,
      escapeCsv p.priority, numCell p.ahtImpact, numCell p.costSaving, numCell p.qualityImpact]

/-- The export handler: the joined header line followed by one line per
record of the project list it is given. -/
def handleExport (projects : List Project) : String :=
  joinSep "\n" (joinSep "," csvHeader :: projects.map exportRow)

/-- Dashboard state the export closure can see: the full list, the
derived filtered list and the filter selection. -/
structure AppState where
  projects : List Project
  filteredProjects : List Project
  filters : Filters

/-- Export as dispatched from the view: `handleExport` reads the full
`projects` state, never `filteredProjects` or `filters`. -/
def exportFromState (st : AppState) : String :=
  handleExport st.projects

/-! Concrete scenario inputs. -/

/-- The parsed data row of the import scenario: file with header
`Project,Owner,Cost` and the single row `Widget,TeamA,1500`. -/
def c3row : Row := [("Project", "Widget"), ("Owner", "TeamA"), ("Cost", "1500")]

/-- The record the upload handler actually stages for that scenario. -/
def c3rec : ImportedProjectData :=
  { name := "Widget", description := "", team := "TeamA", status := "", priority := "",
    ahtImpact := 0, costSaving := 1500, qualityImpact := 0 }

/-- An import row whose team cell is whitespace-only. -/
def c4row : Row := [("Name", "Widget"), ("Team", " ")]

/-- A row having both a header containing `name` and a distinct header
containing `project`. -/
def c10row : Row := [("team name", "Ops"), ("project", "Widget")]

/-- A plain project record with no quote, comma or newline in any field. -/
def pWidget : Project :=
  { id := "w1", name := "Widget", description := "", team := "TeamA", status := "Not Started",
    priority := "Medium", ahtImpact := none, costSaving := none, qualityImpact := none }

/-- Claim C3, counterexample: importing the `Project,Owner,Cost` /
`Widget,TeamA,1500` file stages exactly one preview record, but its
`status` and `priority` fields are empty strings — not the claimed
`"Not Started"` and `"Medium"`. -/
theorem c3_counterexample :
    handleFileUpload [c3row] = [c3rec]
    ∧ c3rec.status ≠ "Not Started" ∧ c3rec.priority ≠ "Medium" := by decide

/-- Claim C3, amended: importing that file stages exactly one preview
record with name `"Widget"`, team `"TeamA"`, `costSaving` 1500 and empty
`status`/`priority`; the defaults `"Not Started"`/`"Medium"` are
substituted per record only when the preview is confirmed (the create
payload), not in the stored preview record. -/
theorem c3_amended_preview_defaults :
    handleFileUpload [c3row] = [c3rec]
    ∧ c3rec.name = "Widget" ∧ c3rec.team = "TeamA" ∧ c3rec.costSaving = 1500
    ∧ c3rec.status = "" ∧ c3rec.priority = ""
    ∧ handleConfirmImport (handleFileUpload [c3row])
        = [{ name := "Widget", description := "", team := "TeamA", status := "Not Started",
             priority := "Medium", ahtImpact := 0, costSaving := 1500, qualityImpact := 0 }] := by
  decide

theorem importRow_isSome (r : Row) :
    (importRow r).isSome
      = (truthy (pick (normalizeKeys r) ["name", "project"])
          && truthy (pick (normalizeKeys r) ["team", "owner"])) := by
  simp only [importRow]
  cases hc : truthy (pick (normalizeKeys r) ["name", "project"])
      && truthy (pick (normalizeKeys r) ["team", "owner"]) <;> simp [hc]

/-- Claim C4, counterexample: a row whose team cell is whitespace-only is
NOT dropped — the truthiness check precedes trimming, so the row is
staged with an empty team and the preview count grows by one. -/
theorem c4_counterexample :
    handleFileUpload [c4row]
      = [{ name := "Widget", description := "", team := "", status := "", priority := "",
           ahtImpact := 0, costSaving := 0, qualityImpact := 0 }]
    ∧ (handleFileUpload [c4row]).length = 1 := by decide

/-- Claim C4, amended: a parsed row is included in the preview iff its
resolved name and team values are truthy before any trimming (present and
not the empty string; whitespace-only values pass), and the preview count
equals the count of such rows. -/
theorem c4_amended_truthy_gate :
    (∀ rawRow : Row,
      (importRow rawRow).isSome
        = (truthy (pick (normalizeKeys rawRow) ["name", "project"])
            && truthy (pick (normalizeKeys rawRow) ["team", "owner"])))
    ∧ ∀ rows : List Row,
        (handleFileUpload rows).length
          = (rows.filter (fun r =>
              truthy (pick (normalizeKeys r) ["name", "project"])
                && truthy (pick (normalizeKeys r) ["team", "owner"]))).length := by
  refine ⟨importRow_isSome, ?_⟩
  intro rows
  induction rows with
  | nil => rfl
  | cons r rest ih =>
      have hc := importRow_isSome r
      simp only [handleFileUpload, List.filterMap_cons, List.filter_cons] at ih ⊢
      cases hr : importRow r with
      | none =>
          rw [hr] at hc
          simp only [Option.isSome_none] at hc
          rw [← hc]
          simpa using ih
      | some v =>
          rw [hr] at hc
          simp only [Option.isSome_some] at hc
          rw [← hc]
          simpa using ih

theorem undouble_double (l : List Char) : undoubleQuotes (doubleQuotes l) = l := by
  induction l with
  | nil => rfl
  | cons c rest ih =>
      by_cases h : c = '"'
      · subst h
        have hd : doubleQuotes ('"' :: rest) = '"' :: '"' :: doubleQuotes rest := by
          simp [doubleQuotes]
        rw [hd]
        have hu : undoubleQuotes ('"' :: '"' :: doubleQuotes rest)
            = '"' :: undoubleQuotes (doubleQuotes rest) := by
          simp [undoubleQuotes]
        rw [hu, ih]
      · have hd : doubleQuotes (c :: rest) = c :: doubleQuotes rest := by
          simp [doubleQuotes, h]
        rw [hd]
        cases hr : doubleQuotes rest with
        | nil =>
            have hrest : rest = [] := by
              cases rest with
              | nil => rfl
              | cons d ds =>
                  exfalso
                  have hne : doubleQuotes (d :: ds) ≠ [] := by
                    by_cases hdq : d = '"' <;> simp [doubleQuotes, hdq]
                  exact hne hr
            subst hrest
            simp [undoubleQuotes]
        | cons d ds =>
            have h2 : undoubleQuotes (c :: d :: ds) = c :: undoubleQuotes (d :: ds) := by
              simp [undoubleQuotes, h]
            rw [h2, ← hr, ih]

/-- Claim C5, counterexample: the export of a single plain record yields
a data row containing no quote character at all — fields are not all
quoted (quoting happens only when a field contains a quote, comma or
newline). -/
theorem c5_counterexample :
    handleExport [pWidget]
      = "Project Name,Description,Team,Status,Priority,AHT Impact,Cost Saving,Quality Impact\nWidget,,TeamA,Not Started,Medium,0,0,0"
    ∧ ((exportRow pWidget).data.contains '"') = false := by decide

/-- Claim C5, amended: a field is quoted exactly when its value contains
a quote, comma or newline; a quoted field is the doubled-quote transform
of the value wrapped in quotes, and the doubling is reversible
(undoubling recovers the value); all other fields are emitted verbatim,
unquoted. -/
theorem c5_amended_conditional_quoting (s : String) :
    (needsQuote s = false → escapeCsv s = s)
    ∧ (needsQuote s = true →
        (escapeCsv s).data = '"' :: (doubleQuotes s.data ++ ['"'])
        ∧ undoubleQuotes (doubleQuotes s.data) = s.data) := by
  constructor
  · intro h
    simp [escapeCsv, h]
  · intro h
    refine ⟨?_, undouble_double s.data⟩
    simp [escapeCsv, h, String.data_append]

/-- Witness for the amended C5 at concrete fields: `"Widget"` is left
verbatim, while a value containing a quote is quoted with its quote
doubled, reversibly. -/
theorem c5_amended_conditional_quoting_witness :
    escapeCsv "Widget" = "Widget"
    ∧ (escapeCsv "say \"hi\"").data = '"' :: (doubleQuotes ("say \"hi\"").data ++ ['"'])
    ∧ undoubleQuotes (doubleQuotes ("say \"hi\"").data) = ("say \"hi\"").data :=
  ⟨(c5_amended_conditional_quoting "Widget").1 (by decide),
   ((c5_amended_conditional_quoting "say \"hi\"").2 (by decide)).1,
   ((c5_amended_conditional_quoting "say \"hi\"").2 (by decide)).2⟩

/-- Claim C9: the export serializes one data row for every record of the
full in-memory project list, preceded by exactly the fixed header row,
and the filter selection (and the filtered list) has no effect: any two
states with the same `projects` export identically. -/
theorem c9_export_full_list (st st' : AppState) (hp : st.projects = st'.projects) :
    exportFromState st = exportFromState st'
    ∧ exportFromState st
        = joinSep "\n"
            ("Project Name,Description,Team,Status,Priority,AHT Impact,Cost Saving,Quality Impact"
              :: st.projects.map exportRow)
    ∧ (st.projects.map exportRow).length = st.projects.length := by
  refine ⟨?_, ?_, by simp⟩
  · simp only [exportFromState, hp]
  · have hh : joinSep "," csvHeader
        = "Project Name,Description,Team,Status,Priority,AHT Impact,Cost Saving,Quality Impact" := by
      decide
    simp only [exportFromState, handleExport, hh]

/-- State with no filter selected, its filtered list equal to the full list. -/
def stUnfiltered : AppState :=
  { projects := [pWidget], filteredProjects := [pWidget],
    filters := { team := "", status := "", priority := "" } }

/-- State with the same full list but an active selection that filters
everything out. -/
def stFiltered : AppState :=
  { projects := [pWidget], filteredProjects := [],
    filters := { team := "NoSuchTeam", status := "Completed", priority := "High" } }

/-- Witness for C9 at two concrete states sharing the project list but
differing in filter selection and filtered list: the exports coincide. -/
theorem c9_export_full_list_witness :
    exportFromState stUnfiltered = exportFromState stFiltered
    ∧ exportFromState stUnfiltered
        = joinSep "\n"
            ("Project Name,Description,Team,Status,Priority,AHT Impact,Cost Saving,Quality Impact"
              :: stUnfiltered.projects.map exportRow)
    ∧ (stUnfiltered.projects.map exportRow).length = stUnfiltered.projects.length :=
  c9_export_full_list stUnfiltered stFiltered rfl

/-- Claim C10: `pick` scans the synonym patterns in order and, within a
pattern, the row's keys in object order, returning the value of the first
key containing the pattern as a substring (a `findSome?` over patterns of
`find?` over keys); consequently, whenever some key contains `"name"`,
the name field is taken from the first such key — the `"project"` pattern
is never consulted. -/
theorem c10_pick_precedence :
    (∀ (row : Row) (patterns : List String),
      pick row patterns
        = patterns.findSome? (fun p => (row.find? (fun kv => jsIncludes kv.1 p)).map Prod.snd))
    ∧ ∀ row : Row,
        (row.find? (fun kv => jsIncludes kv.1 "name")).isSome →
        pick row ["name", "project"]
          = (row.find? (fun kv => jsIncludes kv.1 "name")).map Prod.snd := by
  constructor
  · intro row patterns
    induction patterns with
    | nil => rfl
    | cons p ps ih =>
        cases h : row.find? (fun kv => jsIncludes kv.1 p) with
        | none => simp [pick, h, ih, List.findSome?_cons]
        | some kv => simp [pick, h, List.findSome?_cons]
  · intro row h
    obtain ⟨kv, hkv⟩ := Option.isSome_iff_exists.mp h
    simp [pick, hkv]

/-- Witness for C10 at a concrete row having both a `team name` and a
`project` header: the name value comes from the `team name` column. -/
theorem c10_pick_precedence_witness :
    pick c10row ["name", "project"] = some "Ops" := by
  have h := c10_pick_precedence.2 c10row (by decide)
  rw [h]
  decide

end TT
